import Mathlib

/-!
Verification of the Extractly acquisition-and-extraction pipeline.

Each section shallowly embeds one Python module of `app/services/` into Lean:
pure functions become Lean functions, network effects become explicit
environment records, and external collaborators (DNS, the HTTP client, the
HTML parser, the markdown converter) are abstracted as parameters or record
fields, with a comment at each point saying what is absorbed.  All
definitions are executable by kernel reduction, so every concrete claim can
be settled by `decide`.
-/

set_option autoImplicit false
set_option maxHeartbeats 1000000

namespace PyStr

/-!
## Python string primitives

Kernel-reducible models of the CPython `str` operations the services use.
Strings are processed through their character lists with structural
recursion (the core `String` routines use well-founded recursion and byte
positions, which the kernel cannot evaluate).  Unicode whitespace beyond
ASCII, and unicode case mapping, do not occur in any input considered here,
so the ASCII treatment below coincides with CPython on all inputs used.
-/

/-- Characters CPython `str.strip()` removes (ASCII whitespace). -/
def isSpace (c : Char) : Bool :=
  c = ' ' || c = '\t' || c = '\n' || c = '\r' || c = '\x0b' || c = '\x0c'

/-- Python `s.strip()` restricted to one end: drop leading characters
satisfying `p`. -/
def stripLeftP (p : Char → Bool) (s : String) : String :=
  String.mk (s.data.dropWhile p)

/-- Python `s.rstrip(...)`: drop trailing characters satisfying `p`. -/
def stripRightP (p : Char → Bool) (s : String) : String :=
  String.mk ((s.data.reverse.dropWhile p).reverse)

/-- Python `s.strip(...)` for the character predicate `p`. -/
def stripP (p : Char → Bool) (s : String) : String :=
  stripRightP p (stripLeftP p s)

/-- Python `s.strip()` (whitespace). -/
def strip (s : String) : String := stripP isSpace s

/-- Worker for `split`: scan characters, breaking at each non-overlapping
occurrence of `sep`, with explicit fuel so the recursion is structural. -/
def splitGo (sep : List Char) : Nat → List Char → List Char → List (List Char)
  | 0, acc, l => [acc.reverse ++ l]
  | _ + 1, acc, [] => [acc.reverse]
  | fuel + 1, acc, c :: rest =>
    if sep.isPrefixOf (c :: rest) then
      acc.reverse :: splitGo sep fuel [] (List.drop (sep.length - 1) rest)
    else splitGo sep fuel (c :: acc) rest

/-- Python `s.split(sep)` for a non-empty separator. -/
def split (sep s : String) : List String :=
  (splitGo sep.data (s.data.length + 1) [] s.data).map String.mk

/-- Python `sep.join(xs)`. -/
def join (sep : String) (xs : List String) : String :=
  String.mk (List.intercalate sep.data (xs.map String.data))

/-- Python `s.replace(a, b)` (split at every occurrence of `a`, join with
`b`). -/
def replace (a b s : String) : String := join b (split a s)

/-- Membership of `needle` as a substring of `hay` (Python `in`). -/
def containsSubL (needle : List Char) : List Char → Bool
  | [] => needle.isPrefixOf []
  | c :: rest => needle.isPrefixOf (c :: rest) || containsSubL needle rest

/-- Python `needle in hay`. -/
def containsSub (needle hay : String) : Bool := containsSubL needle.data hay.data

/-- Python `s.startswith(p)`. -/
def startsWith (p s : String) : Bool := p.data.isPrefixOf s.data

/-- Python `s.endswith(p)`. -/
def endsWith (p s : String) : Bool := p.data.isSuffixOf s.data

/-- ASCII lower-casing of one character. -/
def lowerChar (c : Char) : Char :=
  if 'A' ≤ c && c ≤ 'Z' then Char.ofNat (c.toNat + 32) else c

/-- Python `s.lower()` (ASCII; no non-ASCII cased characters occur in the
inputs considered). -/
def lower (s : String) : String := String.mk (s.data.map lowerChar)

end PyStr

/-!
## Rational thresholds

Python passes the deduplication threshold as a `float`.  Every float is a
rational number, and at every input appearing in the spec, the tests, and
the theorems below, the CPython float arithmetic is exact
(`5 * 0.6 == 3.0`, `5 * 0.5 == 2.5`), so a fraction of naturals models it
faithfully.
-/

/-- Non-negative fraction: the model of a Python float threshold. -/
structure Frac where
  num : Nat
  den : Nat
deriving DecidableEq

namespace Dedup

/-! ## app/services/deduplicator.py -/

/-- Constant `_MIN_BLOCK_LEN`: minimum characters a block must have. -/
def MIN_BLOCK_LEN : Nat := 30

/-- Function `_split_blocks`: split on a blank line, strip each block, keep
non-empty blocks of at least `MIN_BLOCK_LEN` characters. -/
def split_blocks (text : String) : List String :=
  ((PyStr.split "\n\n" text).map PyStr.strip).filter
    (fun b => !b.isEmpty && decide (MIN_BLOCK_LEN ≤ b.length))

/-- Number of distinct pages whose block list contains `b`
(`block_page_counts[b]`; the per-page `set(blocks)` makes each page count at
most once, which the page-level `contains` reproduces). -/
def page_count (page_blocks : List (List String)) (b : String) : Nat :=
  (page_blocks.filter (fun bs => bs.contains b)).length

/-- Expression `min_count = max(2, int(len(pages) * threshold))`.  CPython
`int()` on a non-negative value truncates, i.e. floors, which for the exact
rational `n * t.num / t.den` is natural-number division. -/
def min_count (n : Nat) (t : Frac) : Nat :=
  max 2 (n * t.num / t.den)

/-- Membership test of the boilerplate set computed by
`remove_boilerplate`. -/
def is_boilerplate (page_blocks : List (List String)) (n : Nat) (t : Frac) (b : String) : Bool :=
  min_count n t ≤ page_count page_blocks b

/-- Function `remove_boilerplate(pages, threshold)`: detect blocks repeated
across enough distinct pages and remove them from every page, falling back
to the original page text when nothing survives. -/
def remove_boilerplate (pages : List String) (threshold : Frac) : List String × Bool :=
  if pages.length < 2 then (pages, false)
  else
    let page_blocks := pages.map split_blocks
    let n := pages.length
    let boiler := (page_blocks.flatten.dedup).filter (is_boilerplate page_blocks n threshold)
    if boiler.isEmpty then (pages, false)
    else
      let cleaned := (pages.zip page_blocks).map (fun pb =>
        let surviving := pb.2.filter (fun b => !boiler.contains b)
        if surviving.isEmpty then pb.1
        else PyStr.strip (PyStr.join "\n\n" surviving))
      (cleaned, true)

/-- Modelled from the spec: the threshold formula the spec states,
`max(2, ceil(pages * threshold))`, for comparison with the `min_count` the
code computes.  `(a + b - 1) / b` is the ceiling of `a / b` for `b > 0`. -/
def spec_min_count (n : Nat) (t : Frac) : Nat :=
  max 2 ((n * t.num + t.den - 1) / t.den)

end Dedup

namespace Claims

/-! ## Claim C3 and C9 inputs -/

/-- Block repeated on exactly two of the five pages (52 characters, above
`MIN_BLOCK_LEN`). -/
def repBlock : String := "This block repeats on exactly two of the five pages."

/-- Unique page bodies, each above the minimum block length. -/
def pg1 : String := "First page unique content that differs from all other pages."

/-- Second unique page body. -/
def pg2 : String := "Second page unique content that differs from all other pages."

/-- Third unique page body. -/
def pg3 : String := "Third page unique content that differs from all other pages."

/-- Fourth unique page body. -/
def pg4 : String := "Fourth page unique content that differs from all other pages."

/-- Fifth unique page body. -/
def pg5 : String := "Fifth page unique content that differs from all other pages."

/-- Five pages; `repBlock` appears in exactly the first two. -/
def pagesC3 : List String :=
  [pg1 ++ "\n\n" ++ repBlock, pg2 ++ "\n\n" ++ repBlock, pg3, pg4, pg5]

/-- C3: with 5 pages and threshold 1/2, a block appearing in exactly 2
distinct pages is removed by the code, although the claimed threshold
`max(2, ceil(5 * 1/2)) = 3` requires it to be kept: `min_count` truncates
(`int`) where the claim and the docstring of `remove_boilerplate` require
the ceiling of the page fraction. -/
theorem C3_truncation_not_ceiling :
    Dedup.remove_boilerplate pagesC3 ⟨1, 2⟩ = ([pg1, pg2, pg3, pg4, pg5], true) ∧
    Dedup.page_count (pagesC3.map Dedup.split_blocks) repBlock = 2 ∧
    Dedup.min_count 5 ⟨1, 2⟩ = 2 ∧
    Dedup.spec_min_count 5 ⟨1, 2⟩ = 3 := by decide

/-- C9: `remove_boilerplate` keeps the page count, and a page whose
qualifying blocks are all boilerplate is returned as its original text. -/
theorem C9_dedup_never_empties (pages : List String) (t : Frac) :
    (Dedup.remove_boilerplate pages t).1.length = pages.length ∧
    ∀ i, i < pages.length →
      (∀ b ∈ Dedup.split_blocks (pages.getD i ""),
          Dedup.is_boilerplate (pages.map Dedup.split_blocks) pages.length t b = true) →
      (Dedup.remove_boilerplate pages t).1.getD i "" = pages.getD i "" := by
  constructor
  · simp only [Dedup.remove_boilerplate]
    split
    · rfl
    · split
      · rfl
      · simp [List.length_zip]
  · intro i hi hall
    simp only [Dedup.remove_boilerplate]
    split
    · rfl
    · split
      · rfl
      · have hlen : i < ((pages.zip (pages.map Dedup.split_blocks)).map (fun pb =>
            let surviving := pb.2.filter (fun b =>
              !((pages.map Dedup.split_blocks).flatten.dedup.filter
                (Dedup.is_boilerplate (pages.map Dedup.split_blocks) pages.length t)).contains b)
            if surviving.isEmpty then pb.1
            else PyStr.strip (PyStr.join "\n\n" surviving))).length := by
          simpa [List.length_zip] using hi
        rw [List.getD_eq_getElem _ _ hlen, List.getD_eq_getElem _ _ hi]
        simp only [List.getElem_map, List.getElem_zip]
        have hget : Dedup.split_blocks (pages.getD i "") = Dedup.split_blocks pages[i] := by
          rw [List.getD_eq_getElem _ _ hi]
        have hsurv : (Dedup.split_blocks pages[i]).filter (fun b =>
            !((pages.map Dedup.split_blocks).flatten.dedup.filter
              (Dedup.is_boilerplate (pages.map Dedup.split_blocks) pages.length t)).contains b)
            = [] := by
          rw [List.filter_eq_nil_iff]
          intro b hb
          have hpmem : pages[i] ∈ pages := List.getElem_mem hi
          have hbl : Dedup.split_blocks pages[i] ∈ pages.map Dedup.split_blocks :=
            List.mem_map_of_mem Dedup.split_blocks hpmem
          have hmem : b ∈ (pages.map Dedup.split_blocks).flatten.dedup.filter
              (Dedup.is_boilerplate (pages.map Dedup.split_blocks) pages.length t) := by
            rw [List.mem_filter]
            exact ⟨List.mem_dedup.mpr (List.mem_flatten.mpr ⟨_, hbl, hb⟩),
                   hall b (hget.symm ▸ hb)⟩
          simp [List.contains, List.elem_iff, hmem]
        rw [hsurv]
        simp

/-- Boilerplate line shared by both witness pages (52 characters). -/
def pgB : String := "Boilerplate footer line repeated on both pages here."

/-- Unique second-page paragraph for the C9 witness. -/
def pgU : String := "Unique body paragraph that only appears on page two."

/-- Witness input: the first page consists solely of the shared block. -/
def pagesC9 : List String := [pgB, pgB ++ "\n\n" ++ pgU]

/-- C9 witness: on a concrete batch where the first page is pure
boilerplate, the theorem yields that page unchanged. -/
theorem C9_dedup_never_empties_witness :
    (Dedup.remove_boilerplate pagesC9 ⟨3, 5⟩).1.length = pagesC9.length ∧
    (Dedup.remove_boilerplate pagesC9 ⟨3, 5⟩).1.getD 0 "" = pagesC9.getD 0 "" :=
  ⟨(C9_dedup_never_empties pagesC9 ⟨3, 5⟩).1,
   (C9_dedup_never_empties pagesC9 ⟨3, 5⟩).2 0 (by decide) (by decide)⟩

end Claims

namespace Fetch

/-!
## app/services/fetcher.py

The network is a record: `getaddrinfo` models `socket.getaddrinfo` (DNS),
`respond` models one `client.stream("GET", url)` round-trip.  A URL is the
record of the `urlparse` fields validation reads; a redirect response
carries its target already resolved against the current URL (absorbing
`urljoin`).  Response bodies are byte lists delivered in chunks
(`aiter_bytes`); the final text decode (`errors="replace"`) is absorbed as
the identity on bytes.
-/

/-- Constant `MAX_CONTENT_SIZE` (10 MiB). -/
def MAX_CONTENT_SIZE : Nat := 10 * 1024 * 1024

/-- Constant `MAX_REDIRECTS`. -/
def MAX_REDIRECTS : Nat := 10

/-- Parsed URL: the fields of `urllib.parse.urlparse` that `_validate_url`
inspects.  `hostname` is `none` when the URL has no host component. -/
structure Url where
  scheme : String
  hostname : Option String
deriving DecidableEq

/-- One resolved address, with the `ipaddress` classification flags read by
`_is_private_address` (the flag computation itself is the stdlib's). -/
structure AddrInfo where
  is_private : Bool
  is_loopback : Bool
  is_link_local : Bool
  is_reserved : Bool
deriving DecidableEq

/-- One HTTP response: either a redirect (`response.is_redirect`) carrying
its joined target, or a final response with status, optional parsed
`Content-Length`, and the body chunks. -/
inductive HttpResp where
  | redirect (target : Url)
  | final (status : Nat) (contentLength : Option Nat) (chunks : List (List Nat))
deriving DecidableEq

/-- The external world: DNS resolution and the HTTP exchange. -/
structure NetEnv where
  getaddrinfo : String → Option (List AddrInfo)
  respond : Url → HttpResp

/-- Errors of `fetch_url`.  The three `ValueError` cases of `_validate_url`
are kept separate; `blockedAddress` is the SSRF rejection. -/
inductive FetchErr where
  | invalidScheme
  | missingHost
  | blockedAddress
  | httpStatus (code : Nat)
  | tooLarge
  | tooManyRedirects
deriving DecidableEq

/-- Result of `fetch_url`: the decoded body or a raised error. -/
inductive FetchResult where
  | ok (body : List Nat)
  | err (e : FetchErr)
deriving DecidableEq

/-- Function `_is_private_address`: resolve the hostname; `gaierror`
(`none`) yields `False`; otherwise any private/loopback/link-local/reserved
address yields `True`. -/
def is_private_address (env : NetEnv) (hostname : String) : Bool :=
  match env.getaddrinfo hostname with
  | none => false
  | some infos => infos.any (fun a =>
      a.is_private || a.is_loopback || a.is_link_local || a.is_reserved)

/-- Function `_validate_url`: `none` when validation passes, otherwise the
raised `ValueError` case. -/
def validate_url (env : NetEnv) (u : Url) : Option FetchErr :=
  if !(u.scheme = "http" || u.scheme = "https") then some .invalidScheme
  else
    match u.hostname with
    | none => some .missingHost
    | some h =>
      if h = "" then some .missingHost
      else if is_private_address env h then some .blockedAddress
      else none

/-- Streamed accumulation: add each chunk to the running total and abort as
soon as the total exceeds the cap (`aiter_bytes` loop). -/
def accumulate : List (List Nat) → Nat → Option (List Nat)
  | [], _ => some []
  | c :: cs, total =>
    let t := total + c.length
    if MAX_CONTENT_SIZE < t then none
    else
      match accumulate cs t with
      | none => none
      | some rest => some (c ++ rest)

/-- Handling of one final (non-redirect) response: `raise_for_status`
(httpx raises for status >= 400), then the `Content-Length` pre-check, then
the streamed read. -/
def handle_final (status : Nat) (cl : Option Nat) (chunks : List (List Nat)) : FetchResult :=
  if 400 ≤ status then .err (.httpStatus status)
  else
    let body : FetchResult :=
      match accumulate chunks 0 with
      | none => .err .tooLarge
      | some b => .ok b
    match cl with
    | some n => if MAX_CONTENT_SIZE < n then .err .tooLarge else body
    | none => body

/-- Redirect-following loop of `fetch_url` (`for _ in range(MAX_REDIRECTS + 1)`),
returning the result together with the list of URLs actually requested
(each `client.stream` call).  Every redirect target is validated before the
recursive request. -/
def fetch_loop (env : NetEnv) : Nat → Url → FetchResult × List Url
  | 0, _ => (.err .tooManyRedirects, [])
  | fuel + 1, current =>
    match env.respond current with
    | .redirect target =>
      match validate_url env target with
      | some e => (.err e, [current])
      | none =>
        let r := fetch_loop env fuel target
        (r.1, current :: r.2)
    | .final status cl chunks => (handle_final status cl chunks, [current])

/-- Function `fetch_url`: validate the entry URL, then follow redirects
manually with per-hop validation. -/
def fetch_url (env : NetEnv) (u : Url) : FetchResult × List Url :=
  match validate_url env u with
  | some e => (.err e, [])
  | none => fetch_loop env (MAX_REDIRECTS + 1) u

/-- Helper: inside the loop, every requested URL passed validation, given
that the entry URL did. -/
theorem fetch_loop_trace_validated (env : NetEnv) :
    ∀ (fuel : Nat) (u : Url), validate_url env u = none →
      ∀ v ∈ (fetch_loop env fuel u).2, validate_url env v = none := by
  intro fuel
  induction fuel with
  | zero => intro u _ v hv; simp [fetch_loop] at hv
  | succ n ih =>
    intro u hu v hv
    cases hresp : env.respond u with
    | redirect target =>
      cases hval : validate_url env target with
      | some e =>
        simp only [fetch_loop, hresp, hval] at hv
        simp at hv; subst hv; exact hu
      | none =>
        simp only [fetch_loop, hresp, hval] at hv
        simp at hv
        rcases hv with rfl | hv
        · exact hu
        · exact ih target hval v hv
    | final status cl chunks =>
      simp only [fetch_loop, hresp] at hv
      simp at hv
      subst hv
      exact hu

end Fetch

namespace Fetch

/-- Helper: when the whole stream fits under the cap, accumulation returns
the concatenated body. -/
theorem accumulate_ok (chunks : List (List Nat)) :
    ∀ acc, acc + (chunks.map List.length).sum ≤ MAX_CONTENT_SIZE →
      accumulate chunks acc = some chunks.flatten := by
  induction chunks with
  | nil => intro acc _; rfl
  | cons c cs ih =>
    intro acc hle
    simp only [List.map_cons, List.sum_cons] at hle
    have h1 : ¬ MAX_CONTENT_SIZE < acc + c.length := by omega
    have h2 : (acc + c.length) + (cs.map List.length).sum ≤ MAX_CONTENT_SIZE := by omega
    simp [accumulate, h1, ih (acc + c.length) h2]

/-- Helper: when the stream total exceeds the cap, accumulation aborts. -/
theorem accumulate_overflow (chunks : List (List Nat)) :
    ∀ acc, acc ≤ MAX_CONTENT_SIZE →
      MAX_CONTENT_SIZE < acc + (chunks.map List.length).sum →
      accumulate chunks acc = none := by
  induction chunks with
  | nil => intro acc h1 h2; simp at h2; omega
  | cons c cs ih =>
    intro acc h1 h2
    simp only [List.map_cons, List.sum_cons] at h2
    by_cases hc : MAX_CONTENT_SIZE < acc + c.length
    · simp [accumulate, hc]
    · have h3 : acc + c.length ≤ MAX_CONTENT_SIZE := by omega
      have h4 : MAX_CONTENT_SIZE < (acc + c.length) + (cs.map List.length).sum := by omega
      simp [accumulate, hc, ih (acc + c.length) h3 h4]

end Fetch

namespace Claims

/-- C1: fetch_url validates every hop.  Part one: every URL actually
requested (the trace of `client.stream` calls) passed `_validate_url`.
Part two: when a validated first hop redirects to a target whose hostname
resolves to a private/loopback/link-local/reserved address, `fetch_url`
raises the `BlockedAddress` `ValueError` without requesting the target. -/
theorem C1_redirect_revalidation :
    (∀ (env : Fetch.NetEnv) (u : Fetch.Url),
      ∀ v ∈ (Fetch.fetch_url env u).2, Fetch.validate_url env v = none) ∧
    (∀ (env : Fetch.NetEnv) (u1 u2 : Fetch.Url) (h : String),
      Fetch.validate_url env u1 = none →
      env.respond u1 = .redirect u2 →
      (u2.scheme = "http" ∨ u2.scheme = "https") →
      u2.hostname = some h → h ≠ "" →
      Fetch.is_private_address env h = true →
      (Fetch.fetch_url env u1).1 = .err .blockedAddress) := by
  constructor
  · intro env u v hv
    unfold Fetch.fetch_url at hv
    cases hval : Fetch.validate_url env u with
    | some e => rw [hval] at hv; simp at hv
    | none =>
      rw [hval] at hv
      exact Fetch.fetch_loop_trace_validated env _ u hval v hv
  · intro env u1 u2 h hu1 hresp hsch hhost hne hpriv
    have hval2 : Fetch.validate_url env u2 = some .blockedAddress := by
      rcases hsch with hs | hs <;>
        simp [Fetch.validate_url, hs, hhost, hne, hpriv]
    have hloop : ∀ fuel, (Fetch.fetch_loop env (fuel + 1) u1).1 =
        .err .blockedAddress := by
      intro fuel
      simp [Fetch.fetch_loop, hresp, hval2]
    simp only [Fetch.fetch_url, hu1]
    exact hloop Fetch.MAX_REDIRECTS

/-- Network for the C1 witness: a public host that redirects to a host
resolving to a private address. -/
def envC1 : Fetch.NetEnv where
  getaddrinfo := fun host =>
    if host = "internal.example" then some [⟨true, false, false, false⟩]
    else some [⟨false, false, false, false⟩]
  respond := fun u =>
    if u = ⟨"http", some "public.example"⟩ then
      .redirect ⟨"http", some "internal.example"⟩
    else .final 200 none [[104, 105]]

/-- First hop of the C1 witness chain (public). -/
def pubUrl : Fetch.Url := ⟨"http", some "public.example"⟩

/-- Second hop of the C1 witness chain (resolves private). -/
def privUrl : Fetch.Url := ⟨"http", some "internal.example"⟩

/-- C1 witness: on the concrete two-hop chain, the requested first hop is
validated and the private second hop aborts the fetch with
`BlockedAddress`. -/
theorem C1_redirect_revalidation_witness :
    Fetch.validate_url envC1 pubUrl = none ∧
    (Fetch.fetch_url envC1 pubUrl).1 = .err .blockedAddress :=
  ⟨C1_redirect_revalidation.1 envC1 pubUrl pubUrl (by decide),
   C1_redirect_revalidation.2 envC1 pubUrl privUrl "internal.example"
     (by decide) (by decide) (.inl (by decide)) (by decide) (by decide) (by decide)⟩

/-- C8: for a validated URL answered by a final 2xx/3xx response, a
`Content-Length` above the 10 MiB cap fails with `TooLarge`; a body whose
streamed total exceeds the cap fails with `TooLarge` (header or not); and a
response whose body is within the cap, with an absent or truthful
`Content-Length`, is returned whole, never size-rejected. -/
theorem C8_size_cap (env : Fetch.NetEnv) (u : Fetch.Url) (status : Nat)
    (cl : Option Nat) (chunks : List (List Nat))
    (hv : Fetch.validate_url env u = none)
    (hr : env.respond u = .final status cl chunks)
    (hs : status < 400) :
    (∀ n, cl = some n → Fetch.MAX_CONTENT_SIZE < n →
      (Fetch.fetch_url env u).1 = .err .tooLarge) ∧
    (Fetch.MAX_CONTENT_SIZE < (chunks.map List.length).sum →
      (Fetch.fetch_url env u).1 = .err .tooLarge) ∧
    ((cl = none ∨ cl = some ((chunks.map List.length).sum)) →
      (chunks.map List.length).sum ≤ Fetch.MAX_CONTENT_SIZE →
      (Fetch.fetch_url env u).1 = .ok chunks.flatten) := by
  have hfl : ∀ fuel, (Fetch.fetch_loop env (fuel + 1) u).1 =
      Fetch.handle_final status cl chunks := by
    intro f
    simp [Fetch.fetch_loop, hr]
  have hfu : (Fetch.fetch_url env u).1 = Fetch.handle_final status cl chunks := by
    simp only [Fetch.fetch_url, hv]
    exact hfl Fetch.MAX_REDIRECTS
  have h400 : ¬ (400 ≤ status) := by omega
  refine ⟨?_, ?_, ?_⟩
  · intro n hcl hn
    rw [hfu]
    simp [Fetch.handle_final, h400, hcl, hn]
  · intro hsum
    have hacc : Fetch.accumulate chunks 0 = none :=
      Fetch.accumulate_overflow chunks 0 (by simp) (by simpa using hsum)
    rw [hfu]
    cases cl with
    | none => simp [Fetch.handle_final, h400, hacc]
    | some n =>
      by_cases hn : Fetch.MAX_CONTENT_SIZE < n
      · simp [Fetch.handle_final, h400, hn]
      · simp [Fetch.handle_final, h400, hn, hacc]
  · intro hcl hsum
    have hacc : Fetch.accumulate chunks 0 = some chunks.flatten :=
      Fetch.accumulate_ok chunks 0 (by simpa using hsum)
    rw [hfu]
    rcases hcl with rfl | rfl
    · simp [Fetch.handle_final, h400, hacc]
    · simp [Fetch.handle_final, h400, hacc, Nat.not_lt.mpr hsum]

/-- Network for the C8 witness: three hosts answering with a lying
over-cap `Content-Length`, an over-cap body without header, and a small
body. -/
def envC8 : Fetch.NetEnv where
  getaddrinfo := fun _ => some [⟨false, false, false, false⟩]
  respond := fun u =>
    if u = ⟨"http", some "a.example"⟩ then
      .final 200 (some (Fetch.MAX_CONTENT_SIZE + 1)) []
    else if u = ⟨"http", some "b.example"⟩ then
      .final 200 none [List.replicate (Fetch.MAX_CONTENT_SIZE + 1) 0]
    else .final 200 none [[104, 105]]

/-- C8 witness: the three concrete responses give `TooLarge`, `TooLarge`,
and the whole small body respectively. -/
theorem C8_size_cap_witness :
    (Fetch.fetch_url envC8 ⟨"http", some "a.example"⟩).1 = .err .tooLarge ∧
    (Fetch.fetch_url envC8 ⟨"http", some "b.example"⟩).1 = .err .tooLarge ∧
    (Fetch.fetch_url envC8 ⟨"http", some "c.example"⟩).1 = .ok [104, 105] :=
  ⟨(C8_size_cap envC8 ⟨"http", some "a.example"⟩ 200 (some (Fetch.MAX_CONTENT_SIZE + 1)) []
      (by decide) rfl (by decide)).1 (Fetch.MAX_CONTENT_SIZE + 1) rfl (by decide),
   (C8_size_cap envC8 ⟨"http", some "b.example"⟩ 200 none
      [List.replicate (Fetch.MAX_CONTENT_SIZE + 1) 0]
      (by decide) rfl (by decide)).2.1
      (by rw [List.map_cons, List.map_nil, List.length_replicate,
              List.sum_cons, List.sum_nil]; omega),
   (C8_size_cap envC8 ⟨"http", some "c.example"⟩ 200 none [[104, 105]]
      (by decide) rfl (by decide)).2.2 (.inl rfl) (by decide)⟩

end Claims

namespace Detector

/-!
## app/services/detector.py

The two module-level regular expressions are embedded as alternation lists
of atom sequences and matched by an explicit backtracking matcher with
existential-search semantics, which coincides with `re.search` when only
the existence of a match is observed.  `re.IGNORECASE` is modelled by
lower-casing the input; the patterns below are written lower-cased.
-/

/-- Character class: a positive or negated set. -/
inductive CharSet where
  | inc (cs : List Char)
  | exc (cs : List Char)

/-- Membership in a character class. -/
def CharSet.mem (s : CharSet) (c : Char) : Bool :=
  match s with
  | .inc cs => cs.contains c
  | .exc cs => !cs.contains c

/-- One regex atom: a literal run, a single class character, `[..]*`,
`[..]+`, or a word boundary. -/
inductive Atom where
  | lit (s : List Char)
  | one (s : CharSet)
  | star (s : CharSet)
  | plus (s : CharSet)
  | wb

/-- Regex `\w` (ASCII). -/
def isWordChar (c : Char) : Bool :=
  ('a' ≤ c && c ≤ 'z') || ('A' ≤ c && c ≤ 'Z') || ('0' ≤ c && c ≤ '9') || c = '_'

/-- Regex `\s` (ASCII members; the inputs considered contain no non-ASCII
whitespace). -/
def spaceChars : List Char := [' ', '\t', '\n', '\r', '\x0b', '\x0c']

/-- Word-boundary test between the previously consumed character and the
next input character. -/
def boundary (prev : Option Char) (s : List Char) : Bool :=
  let pw := match prev with | none => false | some c => isWordChar c
  let nw := match s with | [] => false | d :: _ => isWordChar d
  pw != nw

/-- Backtracking matcher for one atom sequence anchored at the current
position, with fuel for structural recursion.  Disjunction over the two
choices of `[..]*` gives the existential semantics of a regex engine. -/
def matchAtoms : Nat → List Atom → Option Char → List Char → Bool
  | 0, _, _, _ => false
  | _ + 1, [], _, _ => true
  | fuel + 1, .lit [] :: rest, prev, s => matchAtoms fuel rest prev s
  | fuel + 1, .lit (c :: cs) :: rest, _, d :: s =>
    c = d && matchAtoms fuel (.lit cs :: rest) (some d) s
  | _ + 1, .lit (_ :: _) :: _, _, [] => false
  | fuel + 1, .one cs :: rest, _, d :: s => cs.mem d && matchAtoms fuel rest (some d) s
  | _ + 1, .one _ :: _, _, [] => false
  | fuel + 1, .wb :: rest, prev, s => boundary prev s && matchAtoms fuel rest prev s
  | fuel + 1, .star cs :: rest, prev, s =>
    matchAtoms fuel rest prev s ||
    (match s with
     | [] => false
     | d :: s2 => cs.mem d && matchAtoms fuel (.star cs :: rest) (some d) s2)
  | fuel + 1, .plus cs :: rest, _, s =>
    match s with
    | [] => false
    | d :: s2 => cs.mem d && matchAtoms fuel (.star cs :: rest) (some d) s2

/-- Fuel bound: every `matchAtoms` step shrinks the input or the atom
structure, so this sum dominates the recursion depth. -/
def atomsSize (atoms : List Atom) : Nat :=
  (atoms.map (fun a => match a with | .lit l => l.length + 1 | _ => 1)).sum

/-- Match one branch at the current position. -/
def matchHere (atoms : List Atom) (prev : Option Char) (s : List Char) : Bool :=
  matchAtoms (s.length + atomsSize atoms + 1) atoms prev s

/-- Scan the input, trying every branch at every position (`re.search` over
an alternation). -/
def searchFrom (branches : List (List Atom)) : Nat → Option Char → List Char → Bool
  | 0, _, _ => false
  | fuel + 1, prev, s =>
    branches.any (fun b => matchHere b prev s) ||
    (match s with
     | [] => false
     | c :: s2 => searchFrom branches fuel (some c) s2)

/-- Case-insensitive search of an alternation over the whole input. -/
def regexSearch (branches : List (List Atom)) (input : String) : Bool :=
  let l := (PyStr.lower input).data
  searchFrom branches (l.length + 1) none l

/-- Literal-run atom from a string. -/
def lit (s : String) : Atom := .lit s.data

/-- The class `["\']` (either quote). -/
def anyQuote : CharSet := .inc ['"', '\'']

/-- Pattern `_WP_PATTERN`: the four WordPress fingerprints. -/
def WP_BRANCHES : List (List Atom) :=
  [[lit "/wp-content/"],
   [lit "/wp-includes/"],
   [lit "rel=", .one anyQuote, lit "https://api.w.org/"],
   [lit "<meta", .plus (.exc ['>']), lit "name=", .one anyQuote, lit "generator",
    .one anyQuote, .plus (.exc ['>']), lit "content=", .one anyQuote, lit "wordpress"]]

/-- One `<div\s[^>]*\bid=["\']NAME["\"]` branch of `_SPA_PATTERN` (the
closing class of the source pattern contains only the double quote). -/
def divId (idname : String) : List Atom :=
  [lit "<div", .one (.inc spaceChars), .star (.exc ['>']), .wb,
   lit "id=", .one anyQuote, lit idname, .one (.inc ['"'])]

/-- Pattern `_SPA_PATTERN`: the SPA framework fingerprints. -/
def SPA_BRANCHES : List (List Atom) :=
  [divId "root", divId "__next", divId "app", divId "__nuxt",
   [lit "window.__nuxt__"],
   [lit "__next_data__"],
   [lit "ng-version="],
   [lit "data-reactroot"],
   [lit "<svelte:"]]

/-- Constant `_SPA_MIN_WORDS`. -/
def SPA_MIN_WORDS : Nat := 20

/-- Function `detect_platform(html, word_count)`. -/
def detect_platform (html : String) (word_count : Nat) : String :=
  if regexSearch WP_BRANCHES html then "wordpress"
  else if decide (word_count < SPA_MIN_WORDS) && regexSearch SPA_BRANCHES html then "spa"
  else "ssr"

end Detector

namespace Claims

/-- HTML shell with a React mount point and no WordPress marker. -/
def htmlRootDiv : String :=
  "<!DOCTYPE html><html><head><title>App</title></head><body><div id=\"root\"></div></body></html>"

/-- HTML carrying both a WordPress generator meta tag and a React mount
point. -/
def htmlWpRoot : String :=
  "<meta name=\"generator\" content=\"WordPress 6.4.2\"><div id=\"root\"></div>"

/-- HTML with neither marker. -/
def htmlPlain : String := "<html><body><p>hello there</p></body></html>"

/-- C7: a WordPress marker wins regardless of word count; without one, the
result is spa exactly when an SPA marker is present and the word count is
strictly below 20; otherwise ssr.  At the boundary, the concrete React
shell classifies ssr at 20 words, spa at 19, and the combined
WordPress-plus-React page classifies wordpress at 0 words. -/
theorem C7_classifier_boundary :
    (∀ (html : String) (wc : Nat),
      Detector.regexSearch Detector.WP_BRANCHES html = true →
      Detector.detect_platform html wc = "wordpress") ∧
    (∀ (html : String) (wc : Nat),
      Detector.regexSearch Detector.WP_BRANCHES html = false →
      (Detector.detect_platform html wc = "spa" ↔
        (Detector.regexSearch Detector.SPA_BRANCHES html = true ∧
         wc < Detector.SPA_MIN_WORDS))) ∧
    Detector.detect_platform htmlRootDiv 20 = "ssr" ∧
    Detector.detect_platform htmlRootDiv 19 = "spa" ∧
    Detector.detect_platform htmlWpRoot 0 = "wordpress" := by
  refine ⟨?_, ?_, by decide, by decide, by decide⟩
  · intro html wc h
    simp [Detector.detect_platform, h]
  · intro html wc h
    by_cases hs : Detector.regexSearch Detector.SPA_BRANCHES html = true
    · by_cases hw : wc < Detector.SPA_MIN_WORDS
      · simp [Detector.detect_platform, h, hs, hw]
      · simp [Detector.detect_platform, h, hs, hw]
    · simp only [Bool.not_eq_true] at hs
      simp [Detector.detect_platform, h, hs]

/-- C7 witness: instantiating the quantified parts on the concrete pages
above. -/
theorem C7_classifier_boundary_witness :
    Detector.detect_platform htmlWpRoot 500 = "wordpress" ∧
    (Detector.detect_platform htmlRootDiv 5 = "spa" ↔
      (Detector.regexSearch Detector.SPA_BRANCHES htmlRootDiv = true ∧
       5 < Detector.SPA_MIN_WORDS)) :=
  ⟨C7_classifier_boundary.1 htmlWpRoot 500 (by decide),
   C7_classifier_boundary.2.1 htmlRootDiv 5 (by decide)⟩

end Claims

namespace Crawler

/-!
## app/services/crawler.py

URLs are `urlparse` records; `_normalise` (`_replace(fragment="")` plus
`geturl`) is modelled as clearing the fragment field, since re-parsing the
rebuilt URL yields the same record.  Fetching plus extraction
(`fetch_url` and `extract`) is one environment call returning `none` on any
fetch exception; the links come back already joined and parsed.
-/

/-- Parsed URL record (`urllib.parse.urlparse` fields the crawler reads). -/
structure PUrl where
  scheme : String
  netloc : String
  path : String
  query : String
  fragment : String
deriving DecidableEq

/-- Constant `MAX_PAGES_HARD_LIMIT` of the crawler module. -/
def MAX_PAGES_HARD_LIMIT : Nat := 50

/-- Tuple `_SKIP_PATH_PREFIXES`. -/
def SKIP_PATH_PREFIXES : List String :=
  ["/wp-admin", "/wp-login", "/wp-json", "/wp-content"]

/-- Tuple `_SKIP_PATH_SUFFIXES_STRIPPED` (each suffix with trailing slashes
removed; only "/feed" had none to remove). -/
def SKIP_PATH_SUFFIXES_STRIPPED : List String :=
  [".xml", ".rss", ".atom", "xmlrpc.php", "/feed"]

/-- Set `_SKIP_QUERY_PARAMS`. -/
def SKIP_QUERY_PARAMS : List String := ["feed", "preview", "replytocom"]

/-- Function `_normalise`: strip the URL fragment. -/
def normalise (u : PUrl) : PUrl := { u with fragment := "" }

/-- Function `_same_domain`: exact host-string match. -/
def same_domain (u : PUrl) (base_netloc : String) : Bool := u.netloc = base_netloc

/-- Keys of `urllib.parse.parse_qs(query)`: split on `&`, take `name=value`
pairs whose value part is non-empty (`keep_blank_values` defaults to
false); percent-decoding is absorbed (no encoded input occurs here). -/
def parse_qs_keys (q : String) : List String :=
  (PyStr.split "&" q).filterMap (fun pair =>
    match PyStr.split "=" pair with
    | [] => none
    | [_] => none
    | name :: rest => if PyStr.join "=" rest = "" then none else some name)

/-- Function `_should_skip`: non-content path prefixes and suffixes, and
noise query parameters. -/
def should_skip (u : PUrl) : Bool :=
  let path := PyStr.lower u.path
  if SKIP_PATH_PREFIXES.any (fun p => PyStr.startsWith p path) then true
  else
    let path_stripped := PyStr.stripRightP (fun c => c = '/') path
    if SKIP_PATH_SUFFIXES_STRIPPED.any (fun sfx => PyStr.endsWith sfx path_stripped) then true
    else (parse_qs_keys u.query).any (fun k => SKIP_QUERY_PARAMS.contains k)

/-- Output of `extract(html, url)` as the crawler consumes it; links are
already resolved and parsed. -/
structure ExtractOut where
  title : String
  description : String
  content_markdown : String
  images : List String
  videos : List String
  links : List PUrl
  word_count : Nat
deriving DecidableEq

/-- One `PageData` named-tuple. -/
structure PageData where
  url : PUrl
  title : String
  description : String
  content_markdown : String
  images : List String
  videos : List String
  links : List PUrl
  word_count : Nat
deriving DecidableEq

/-- The crawler's external world: one fetch-and-extract call per URL,
`none` when `fetch_url` raises (the non-fatal skip path). -/
structure CrawlEnv where
  fetchExtract : PUrl → Option ExtractOut

/-- Crawl state: the visited set, the FIFO frontier, and the results, plus
two instrumentation lists recording which URLs were passed to the fetcher
and which were dropped by the `_should_skip` branch. -/
structure CrawlState where
  visited : List PUrl
  queue : List (PUrl × Nat)
  results : List PageData
  fetched : List PUrl
  skipped : List PUrl
deriving DecidableEq

/-- The `while queue and len(visited) < max_pages` loop of `crawl`, with
fuel for structural recursion (each iteration pops one queue entry). -/
def crawl_loop (env : CrawlEnv) (base_netloc : String) (max_pages max_depth : Nat) :
    Nat → CrawlState → CrawlState
  | 0, st => st
  | fuel + 1, st =>
    match st.queue with
    | [] => st
    | (url, depth) :: rest =>
      if max_pages ≤ st.visited.length then st
      else
        let n := normalise url
        if st.visited.contains n then
          crawl_loop env base_netloc max_pages max_depth fuel { st with queue := rest }
        else
          let st1 := { st with visited := st.visited ++ [n], queue := rest }
          if should_skip n then
            crawl_loop env base_netloc max_pages max_depth fuel
              { st1 with skipped := st1.skipped ++ [n] }
          else
            match env.fetchExtract n with
            | none =>
              crawl_loop env base_netloc max_pages max_depth fuel
                { st1 with fetched := st1.fetched ++ [n] }
            | some ex =>
              let pd : PageData := ⟨n, ex.title, ex.description, ex.content_markdown,
                ex.images, ex.videos, ex.links, ex.word_count⟩
              let newq := if depth < max_depth then
                  st1.queue ++ ((ex.links.map normalise).filter (fun l =>
                    !st1.visited.contains l && same_domain l base_netloc)).map
                      (fun l => (l, depth + 1))
                else st1.queue
              crawl_loop env base_netloc max_pages max_depth fuel
                { st1 with results := st1.results ++ [pd],
                           fetched := st1.fetched ++ [n],
                           queue := newq }

/-- Function `crawl(start_url, max_pages, max_depth)`: cap `max_pages` at
the hard limit and run the BFS from the seed at depth 0. -/
def crawl (env : CrawlEnv) (start : PUrl) (max_pages max_depth fuel : Nat) : CrawlState :=
  crawl_loop env start.netloc (min max_pages MAX_PAGES_HARD_LIMIT) max_depth fuel
    ⟨[], [(start, 0)], [], [], []⟩

/-- Helper invariant: along the loop, fetched URLs are never skip-matching,
and skipped URLs are recorded in the visited set. -/
theorem crawl_loop_skip_inv (env : CrawlEnv) (base : String) (mp md : Nat) :
    ∀ (fuel : Nat) (st : CrawlState),
      (∀ u ∈ st.fetched, should_skip u = false) →
      (∀ u ∈ st.skipped, u ∈ st.visited) →
      (∀ u ∈ (crawl_loop env base mp md fuel st).fetched, should_skip u = false) ∧
      (∀ u ∈ (crawl_loop env base mp md fuel st).skipped,
        u ∈ (crawl_loop env base mp md fuel st).visited) := by
  intro fuel
  induction fuel with
  | zero => intro st h1 h2; exact ⟨h1, h2⟩
  | succ f ih =>
    intro st h1 h2
    simp only [crawl_loop]
    cases hq : st.queue with
    | nil => exact ⟨h1, h2⟩
    | cons entry rest =>
      obtain ⟨url, depth⟩ := entry
      by_cases hmax : mp ≤ st.visited.length
      · simp only [hmax, if_true]
        exact ⟨h1, h2⟩
      · simp only [hmax, if_false]
        by_cases hvis : st.visited.contains (normalise url)
        · simp only [hvis, if_true]
          exact ih _ h1 h2
        · simp only [hvis, if_false]
          by_cases hskip : should_skip (normalise url)
          · simp only [hskip, if_true]
            refine ih _ h1 ?_
            intro u hu
            simp only [List.mem_append, List.mem_singleton] at hu
            rcases hu with hu | rfl
            · exact List.mem_append_left _ (h2 u hu)
            · exact List.mem_append_right _ (by simp)
          · simp only [hskip, if_false]
            cases hfe : env.fetchExtract (normalise url) with
            | none =>
              refine ih _ ?_ ?_
              · intro u hu
                simp only [List.mem_append, List.mem_singleton] at hu
                rcases hu with hu | rfl
                · exact h1 u hu
                · simpa using hskip
              · intro u hu
                exact List.mem_append_left _ (h2 u hu)
            | some ex =>
              refine ih _ ?_ ?_
              · intro u hu
                simp only [List.mem_append, List.mem_singleton] at hu
                rcases hu with hu | rfl
                · exact h1 u hu
                · simpa using hskip
              · intro u hu
                exact List.mem_append_left _ (h2 u hu)

end Crawler

namespace Claims

/-- Seed page of the C4 network. -/
def seedU : Crawler.PUrl := ⟨"http", "site.example", "/", "", ""⟩

/-- Skippable admin URL linked from the seed. -/
def skipU : Crawler.PUrl := ⟨"http", "site.example", "/wp-admin/options.php", "", ""⟩

/-- Ordinary content URL linked from the seed. -/
def contU : Crawler.PUrl := ⟨"http", "site.example", "/about", "", ""⟩

/-- C4 network: the seed links to the admin URL and then the content URL;
the content URL is fetchable. -/
def envC4 : Crawler.CrawlEnv where
  fetchExtract := fun u =>
    if u = seedU then some ⟨"Seed", "", "seed body", [], [], [skipU, contU], 2⟩
    else if u = contU then some ⟨"About", "", "about body", [], [], [], 2⟩
    else none

/-- C4 counterexample: with `max_pages = 2`, the dequeued admin URL is
skipped without a fetch but enters the visited set, which is what the
`len(visited) < max_pages` bound counts — so the crawl stops after one
content page, while raising the cap to 3 yields both content pages.
Skipped candidates therefore do count against `max_pages` and do reduce
the number of content pages returned. -/
theorem C4_skip_counts_against_cap :
    (Crawler.crawl envC4 seedU 2 3 10).results.length = 1 ∧
    (Crawler.crawl envC4 seedU 3 3 10).results.length = 2 ∧
    Crawler.normalise skipU ∈ (Crawler.crawl envC4 seedU 2 3 10).visited ∧
    Crawler.should_skip (Crawler.normalise skipU) = true := by decide

/-- C4 amended: every URL handed to the fetcher fails `_should_skip`
(skipped candidates are never fetched), and every skipped candidate is
recorded in the visited set, the quantity bounded by `max_pages`. -/
theorem C4_skip_not_fetched_but_counted (env : Crawler.CrawlEnv)
    (start : Crawler.PUrl) (mp md fuel : Nat) :
    (∀ u ∈ (Crawler.crawl env start mp md fuel).fetched,
      Crawler.should_skip u = false) ∧
    (∀ u ∈ (Crawler.crawl env start mp md fuel).skipped,
      u ∈ (Crawler.crawl env start mp md fuel).visited) := by
  unfold Crawler.crawl
  exact Crawler.crawl_loop_skip_inv env start.netloc
    (min mp Crawler.MAX_PAGES_HARD_LIMIT) md fuel ⟨[], [(start, 0)], [], [], []⟩
    (by intro u hu; simp at hu) (by intro u hu; simp at hu)

/-- C4 witness: on the concrete network, the fetched seed is non-skippable
and the skipped admin URL is in the visited set. -/
theorem C4_skip_not_fetched_but_counted_witness :
    Crawler.should_skip (Crawler.normalise seedU) = false ∧
    Crawler.normalise skipU ∈ (Crawler.crawl envC4 seedU 2 3 10).visited :=
  ⟨(C4_skip_not_fetched_but_counted envC4 seedU 2 3 10).1
      (Crawler.normalise seedU) (by decide),
   (C4_skip_not_fetched_but_counted envC4 seedU 2 3 10).2
      (Crawler.normalise skipU) (by decide)⟩

end Claims

namespace Sanitizer

/-!
## app/services/sanitizer.py and app/services/extractor.py

The parsed HTML document is a mutually inductive rose tree (element, text,
comment); the `lxml` parse itself is absorbed, test documents are written
as trees.  BeautifulSoup `decompose` during iteration skips the removed
subtree, so each mutation pass is a pure recursive rebuild, and the three
passes of `sanitize` (tag removal, comment removal, noise/hidden/attribute
cleaning) are composed in source order.
-/

mutual

/-- One parsed HTML node. -/
inductive HNode where
  | elem (tag : String) (attrs : List (String × String)) (children : HForest)
  | textN (s : String)
  | commentN (s : String)

/-- A sequence of sibling nodes. -/
inductive HForest where
  | nil
  | cons (head : HNode) (tail : HForest)

end

/-- Build a forest from a list of nodes. -/
def HForest.ofList : List HNode → HForest
  | [] => .nil
  | n :: r => .cons n (HForest.ofList r)

/-- Set `_REMOVE_TAGS`. -/
def REMOVE_TAGS : List String :=
  ["script", "style", "noscript", "iframe", "object", "embed", "applet",
   "link", "meta", "svg", "canvas", "template"]

/-- Set `_NOISE_KEYWORDS`. -/
def NOISE_KEYWORDS : List String :=
  ["nav", "navbar", "navigation", "menu", "sidebar", "side-bar", "banner",
   "popup", "modal", "cookie", "gdpr", "ads", "advertisement", "tracking",
   "footer", "header", "breadcrumb", "pagination", "social", "share",
   "related", "recommend", "subscribe", "newsletter", "promo", "overlay",
   "comment", "widget", "author-info", "author-bio", "author-box",
   "post-meta", "entry-meta", "wp-block-latest-posts", "wp-block-categories",
   "wp-block-archives", "wp-block-tag-cloud", "site-branding", "site-footer",
   "site-header", "search-form"]

/-- Attribute lookup (`tag.get(name)`). -/
def getAttr (attrs : List (String × String)) (name : String) : Option String :=
  (attrs.find? (fun p => p.1 = name)).map (fun p => p.2)

/-- Function `_has_noise_attr`: the id (when truthy) and every class token,
lower-cased, checked for any noise keyword as a substring.  BeautifulSoup
stores `class` as whitespace-split tokens; the record stores it
space-separated and splits here. -/
def has_noise_attr (attrs : List (String × String)) : Bool :=
  if attrs.isEmpty then false
  else
    let idPart := match getAttr attrs "id" with
      | some v => if v ≠ "" then [PyStr.lower v] else []
      | none => []
    let classPart := (match getAttr attrs "class" with
      | some v => (PyStr.split " " v).filter (fun c : String => !c.isEmpty)
      | none => ([] : List String)).map PyStr.lower
    (idPart ++ classPart).any (fun a =>
      NOISE_KEYWORDS.any (fun k => PyStr.containsSub k a))

/-- Pattern `_HIDDEN_STYLE_RE` as a two-branch alternation. -/
def HIDDEN_STYLE_BRANCHES : List (List Detector.Atom) :=
  [[Detector.lit "display", .star (.inc Detector.spaceChars), Detector.lit ":",
    .star (.inc Detector.spaceChars), Detector.lit "none"],
   [Detector.lit "visibility", .star (.inc Detector.spaceChars), Detector.lit ":",
    .star (.inc Detector.spaceChars), Detector.lit "hidden"]]

/-- Search of `_HIDDEN_STYLE_RE` in an inline style value. -/
def hidden_style (style : String) : Bool :=
  Detector.regexSearch HIDDEN_STYLE_BRANCHES style

/-- Pattern `_JUNK_ATTRS` (`^(style|on\w+)$`) applied with `.match`: the
attribute is exactly `style`, or `on` followed by at least one word
character. -/
def is_junk_attr (name : String) : Bool :=
  let n := PyStr.lower name
  n = "style" ||
    (PyStr.startsWith "on" n && decide (2 < n.length) &&
      (n.data.drop 2).all Detector.isWordChar)

mutual

/-- Pass one of `sanitize` on a node: drop `_REMOVE_TAGS` subtrees. -/
def stripTagsN : HNode → Option HNode
  | .elem t a cs =>
    if REMOVE_TAGS.contains t then none else some (.elem t a (stripTagsF cs))
  | .textN s => some (.textN s)
  | .commentN s => some (.commentN s)

/-- Pass one of `sanitize` on a forest. -/
def stripTagsF : HForest → HForest
  | .nil => .nil
  | .cons n rest =>
    match stripTagsN n with
    | none => stripTagsF rest
    | some m => .cons m (stripTagsF rest)

end

mutual

/-- Pass two of `sanitize` on a node: extract comment nodes. -/
def stripCommentsN : HNode → Option HNode
  | .elem t a cs => some (.elem t a (stripCommentsF cs))
  | .textN s => some (.textN s)
  | .commentN _ => none

/-- Pass two of `sanitize` on a forest. -/
def stripCommentsF : HForest → HForest
  | .nil => .nil
  | .cons n rest =>
    match stripCommentsN n with
    | none => stripCommentsF rest
    | some m => .cons m (stripCommentsF rest)

end

mutual

/-- Pass three of `sanitize` on a node: drop noise-attribute elements and
inline-hidden elements, strip style/event-handler attributes from the
rest. -/
def cleanAttrsN : HNode → Option HNode
  | .elem t a cs =>
    if has_noise_attr a then none
    else
      let style := (getAttr a "style").getD ""
      if style ≠ "" && hidden_style style then none
      else some (.elem t (a.filter (fun p => !is_junk_attr p.1)) (cleanAttrsF cs))
  | .textN s => some (.textN s)
  | .commentN s => some (.commentN s)

/-- Pass three of `sanitize` on a forest. -/
def cleanAttrsF : HForest → HForest
  | .nil => .nil
  | .cons n rest =>
    match cleanAttrsN n with
    | none => cleanAttrsF rest
    | some m => .cons m (cleanAttrsF rest)

end

/-- Function `sanitize(html)` on the parsed document. -/
def sanitize (doc : HForest) : HForest :=
  cleanAttrsF (stripCommentsF (stripTagsF doc))

mutual

/-- BeautifulSoup `get_text()` of one node (empty separator). -/
def getTextN : HNode → String
  | .elem _ _ cs => getTextF cs
  | .textN s => s
  | .commentN s => s

/-- BeautifulSoup `get_text()` of a forest. -/
def getTextF : HForest → String
  | .nil => ""
  | .cons n rest => getTextN n ++ getTextF rest

end

mutual

/-- Pre-order first node satisfying `p` (CSS `select_one` /
`soup.find`). -/
def findN (p : HNode → Bool) : HNode → Option HNode
  | .elem t a cs =>
    if p (.elem t a cs) then some (.elem t a cs) else findF p cs
  | .textN s => if p (.textN s) then some (.textN s) else none
  | .commentN s => if p (.commentN s) then some (.commentN s) else none

/-- Pre-order first node of a forest satisfying `p`. -/
def findF (p : HNode → Bool) : HForest → Option HNode
  | .nil => none
  | .cons n rest =>
    match findN p n with
    | some m => some m
    | none => findF p rest

end

/-- Tag-name selector. -/
def isTag (t : String) (n : HNode) : Bool :=
  match n with
  | .elem tg _ _ => tg = t
  | _ => false

/-- Attribute-value selector (`[role="main"]`). -/
def hasAttrVal (name v : String) (n : HNode) : Bool :=
  match n with
  | .elem _ a _ => getAttr a name = some v
  | _ => false

/-- Class-token selector (`.entry-content`). -/
def hasClassToken (cls : String) (n : HNode) : Bool :=
  match n with
  | .elem _ a _ => (PyStr.split " " ((getAttr a "class").getD "")).contains cls
  | _ => false

/-- The ordered selector list of `_find_main_content`. -/
def selectors : List (HNode → Bool) :=
  [isTag "article", isTag "main", hasAttrVal "role" "main",
   hasClassToken "entry-content", hasClassToken "post-content",
   hasClassToken "page-content", hasClassToken "wp-block-post-content"]

/-- First selector with a hit, in priority order. -/
def firstMatch : List (HNode → Bool) → HForest → Option HNode
  | [], _ => none
  | p :: ps, doc =>
    match findF p doc with
    | some n => some n
    | none => firstMatch ps doc

/-- Function `_find_main_content`: semantic selectors in priority order,
then `<body>`, then the whole tree. -/
def find_main_content (doc : HForest) : HForest :=
  match firstMatch selectors doc with
  | some n => .cons n .nil
  | none =>
    match findF (isTag "body") doc with
    | some b => .cons b .nil
    | none => doc

end Sanitizer

namespace Claims

/-- Text-node shorthand for test documents. -/
def tx (s : String) : Sanitizer.HNode := .textN s

/-- Attribute-free element shorthand for test documents. -/
def el (t : String) (cs : List Sanitizer.HNode) : Sanitizer.HNode :=
  .elem t [] (Sanitizer.HForest.ofList cs)

/-- Parsed form of the sanitizer test input
`<body><main><p>Content</p></main><footer><p>Copyright 2024</p></footer></body>`. -/
def docC6 : Sanitizer.HForest :=
  Sanitizer.HForest.ofList [el "html" [el "body" [
    el "main" [el "p" [tx "Content"]],
    el "footer" [el "p" [tx "Copyright 2024"]]]]]

/-- Document whose body has a direct `<footer>` child and no `<article>`,
`<main>`, or content-class container. -/
def docNoMain : Sanitizer.HForest :=
  Sanitizer.HForest.ofList [el "html" [el "body" [
    el "footer" [el "p" [tx "Site copyright 2024"]],
    el "p" [tx "Page content here"]]]]

/-- C6: `sanitize` has no body-direct structural-noise removal: a bare
`<footer>` (no id or class) survives sanitization — the repository's own
test `test_removes_body_direct_child_footer` asserts the opposite — and on
a page without an `<article>`/`<main>` container the body-direct footer
text reaches the extracted main content. -/
theorem C6_body_footer_not_removed :
    PyStr.containsSub "Copyright 2024"
      (Sanitizer.getTextF (Sanitizer.sanitize docC6)) = true ∧
    PyStr.containsSub "Site copyright 2024"
      (Sanitizer.getTextF
        (Sanitizer.find_main_content (Sanitizer.sanitize docNoMain))) = true := by
  decide

end Claims

namespace Normalizer

/-!
## app/services/normalizer.py and app/models/page.py

`generate_slug` receives the URL already parsed (the `urlparse` record of
the crawler section).  The NFKD decomposition of `unicodedata.normalize`
is the stdlib's; after it, `encode("ascii", "ignore")` keeps exactly the
code points below 128, modelled as the ascii filter.
-/

/-- Characters the slug regex `[^a-z0-9]+` does not replace. -/
def isSlugChar (c : Char) : Bool :=
  ('a' ≤ c && c ≤ 'z') || ('0' ≤ c && c ≤ '9')

/-- Hyphen test for the final `strip("-")`. -/
def isDash (c : Char) : Bool := c = '-'

/-- Expression `re.sub(r"\.[^/]+$", "", path)`: the leftmost dot followed
only by non-slash characters up to the end starts the removed suffix. -/
def removeExtL : List Char → List Char
  | [] => []
  | c :: cs =>
    if c = '.' && !cs.isEmpty && cs.all (fun d => d != '/') then []
    else c :: removeExtL cs

/-- Expression `re.sub(r"[^a-z0-9]+", "-", slug)`: every maximal run of
non-slug characters becomes one hyphen.  The flag records whether the
current run already emitted its hyphen. -/
def hyphAux : Bool → List Char → List Char
  | _, [] => []
  | emitted, c :: cs =>
    if isSlugChar c then c :: hyphAux false cs
    else if emitted then hyphAux true cs
    else '-' :: hyphAux true cs

/-- Tail of `generate_slug` from the chosen base string onward: NFKD plus
ascii-ignore (the filter), lower-casing, hyphen substitution, hyphen strip,
and the `"page"` fallback. -/
def slugify (slug_base : String) : String :=
  let ascii := PyStr.lower (String.mk (slug_base.data.filter (fun c => decide (c.toNat < 128))))
  let slug := String.mk (hyphAux false ascii.data)
  let slug := PyStr.stripP isDash slug
  if slug = "" then "page" else slug

/-- Function `generate_slug(url, title)`. -/
def generate_slug (url : Crawler.PUrl) (title : String) : String :=
  let path := PyStr.stripP (fun c => c = '/') url.path
  let path := String.mk (removeExtL path.data)
  let slug_base :=
    if path ≠ "" then
      let lastSeg := (PyStr.split "/" path).getLastD ""
      if lastSeg ≠ "" then lastSeg else PyStr.replace "/" "-" path
    else if title ≠ "" then title
    else url.netloc
  slugify slug_base

/-- Function `_escape_yaml`. -/
def escape_yaml (v : String) : String :=
  PyStr.replace "\"" "\\\"" (PyStr.replace "\\" "\\\\" v)

/-- Function `make_frontmatter`. -/
def make_frontmatter (title description url slug : String)
    (canonical : Option String) : String :=
  let lines := ["---",
    "title: \"" ++ escape_yaml title ++ "\"",
    "description: \"" ++ escape_yaml description ++ "\"",
    "url: \"" ++ url ++ "\"",
    "slug: \"" ++ slug ++ "\""]
  let lines := match canonical with
    | some c => if c ≠ "" && c ≠ url then lines ++ ["canonical: \"" ++ c ++ "\""] else lines
    | none => lines
  PyStr.join "\n" (lines ++ ["---"])

/-- Model `PageModel` (app/models/page.py). -/
structure PageModel where
  url : String
  slug : String
  title : String
  meta_description : String
  content : String
  content_markdown : String
  images : List String
  internal_links : List String
  canonical : Option String
deriving DecidableEq

/-- Well-formedness the claim asserts of slugs: non-empty, only lowercase
letters, digits and hyphens, no hyphen at either edge, no two adjacent
hyphens. -/
def slug_wellformed (s : String) : Prop :=
  s ≠ "" ∧
  (∀ c ∈ s.data, isSlugChar c = true ∨ c = '-') ∧
  s.data.head? ≠ some '-' ∧
  s.data.getLast? ≠ some '-' ∧
  List.Chain' (fun a b => ¬(a = '-' ∧ b = '-')) s.data

/-- Every character the hyphen substitution emits is a slug character or a
hyphen. -/
theorem hyphAux_chars : ∀ (b : Bool) (l : List Char) (c : Char),
    c ∈ hyphAux b l → isSlugChar c = true ∨ c = '-' := by
  intro b l
  induction l generalizing b with
  | nil => intro c hc; simp [hyphAux] at hc
  | cons a t ih =>
    intro c hc
    by_cases ha : isSlugChar a
    · simp only [hyphAux, ha, if_true] at hc
      rcases List.mem_cons.mp hc with rfl | hc
      · exact Or.inl ha
      · exact ih false c hc
    · simp only [hyphAux, ha, if_false] at hc
      by_cases hb : b
      · subst hb; simp only [if_true] at hc; exact ih true c hc
      · simp only [hb, if_false] at hc
        rcases List.mem_cons.mp hc with rfl | hc
        · exact Or.inr rfl
        · exact ih true c hc

/-- With the run flag set, the substitution never starts with a hyphen. -/
theorem hyphAux_true_head : ∀ (l : List Char),
    (hyphAux true l).head? ≠ some '-' := by
  intro l
  induction l with
  | nil => simp [hyphAux]
  | cons a t ih =>
    by_cases ha : isSlugChar a
    · simp only [hyphAux, ha, if_true]
      intro h
      simp at h
      rw [h] at ha
      simp [isSlugChar] at ha
    · simp only [hyphAux, ha, if_false, if_true]
      exact ih

/-- The substitution never emits two adjacent hyphens. -/
theorem hyphAux_chain : ∀ (b : Bool) (l : List Char),
    List.Chain' (fun a c => ¬(a = '-' ∧ c = '-')) (hyphAux b l) := by
  intro b l
  induction l generalizing b with
  | nil => simp [hyphAux]
  | cons a t ih =>
    by_cases ha : isSlugChar a
    · simp only [hyphAux, ha, if_true]
      refine List.chain'_cons'.mpr ⟨?_, ih false⟩
      intro y _
      intro hcon
      rw [hcon.1] at ha
      simp [isSlugChar] at ha
    · simp only [hyphAux, ha, if_false]
      by_cases hb : b
      · subst hb; simp only [if_true]; exact ih true
      · simp only [hb, if_false]
        refine List.chain'_cons'.mpr ⟨?_, ih true⟩
        intro y hy
        intro hcon
        exact hyphAux_true_head t (by rw [hy, hcon.2])

/-- Data view of the two-sided strip. -/
theorem stripP_data (p : Char → Bool) (s : String) :
    (PyStr.stripP p s).data = List.rdropWhile p (List.dropWhile p s.data) := rfl

/-- The head surviving a `dropWhile` fails the predicate. -/
theorem dropWhile_head?_not (p : Char → Bool) :
    ∀ (l : List Char) (c : Char), (List.dropWhile p l).head? = some c → p c = false := by
  intro l
  induction l with
  | nil => intro c h; simp [List.dropWhile] at h
  | cons a t ih =>
    intro c h
    by_cases ha : p a
    · rw [List.dropWhile_cons_of_pos ha] at h
      exact ih c h
    · rw [List.dropWhile_cons_of_neg ha] at h
      simp at h
      rw [← h]
      exact Bool.eq_false_iff.mpr ha

/-- `slugify` always produces a well-formed slug. -/
theorem slugify_wellformed (base : String) : slug_wellformed (slugify base) := by
  unfold slugify
  set ascii := PyStr.lower (String.mk (base.data.filter (fun c => decide (c.toNat < 128)))) with hascii
  set l0 := hyphAux false ascii.data with hl0
  set stripped := PyStr.stripP isDash (String.mk l0) with hstr
  by_cases hempty : stripped = ""
  · rw [if_pos hempty]
    refine ⟨by decide, by decide, by decide, by decide, ?_⟩
    show List.Chain' (fun a b => ¬(a = '-' ∧ b = '-')) ['p', 'a', 'g', 'e']
    exact List.Chain.cons (by decide)
      (List.Chain.cons (by decide) (List.Chain.cons (by decide) List.Chain.nil))
  · rw [if_neg hempty]
    have hdata : stripped.data = List.rdropWhile isDash (List.dropWhile isDash l0) := by
      rw [hstr, stripP_data]
    have hne : stripped.data ≠ [] := by
      intro h0
      exact hempty (String.ext h0)
    have hinf : stripped.data <:+: l0 := by
      rw [hdata]
      exact (List.rdropWhile_prefix _ _).isInfix.trans (List.dropWhile_suffix _).isInfix
    refine ⟨hempty, ?_, ?_, ?_, ?_⟩
    · intro c hc
      exact hyphAux_chars false ascii.data c (hinf.subset hc)
    · intro hh
      have h1 : (List.dropWhile isDash l0).head? = some '-' := by
        obtain ⟨r, hr⟩ := List.rdropWhile_prefix isDash (List.dropWhile isDash l0)
        rw [← hr, List.head?_append_of_ne_nil _ (by rw [← hdata]; exact hne),
            ← hdata, hh]
      have h2 := dropWhile_head?_not isDash l0 '-' h1
      simp [isDash] at h2
    · intro hh
      rw [hdata] at hh
      obtain ⟨h9, h10⟩ := List.mem_getLast?_eq_getLast
        (show '-' ∈ (List.rdropWhile isDash (List.dropWhile isDash l0)).getLast? from hh)
      exact List.rdropWhile_last_not isDash (List.dropWhile isDash l0) h9
        (by rw [← h10]; simp [isDash])
    · exact List.Chain'.infix (hyphAux_chain false ascii.data) hinf

/-- `generate_slug` always produces a well-formed slug. -/
theorem generate_slug_wellformed (url : Crawler.PUrl) (title : String) :
    slug_wellformed (generate_slug url title) :=
  slugify_wellformed _

end Normalizer

namespace WP

/-!
## app/services/wordpress.py — `_item_to_page`

A REST item is the record of the fields `_item_to_page` reads, with the
`.get(..., default)` defaults already applied (absent fields are empty
strings).  The external collaborators are parameters: `parse` is
`BeautifulSoup(html, "lxml")`, `mdify` is `markdownify(..., heading_style="ATX")`,
`urlparse` and `join` are the stdlib URL helpers.  The enclosing
`try/except` returns `None` only when one of those collaborators raises;
the pure model is total, so that path has no counterpart.
-/

/-- One WordPress REST API item (fields `_item_to_page` reads). -/
structure WpItem where
  link : String
  slug : String
  titleRendered : String
  contentRendered : String
  excerptRendered : String
deriving DecidableEq

mutual

/-- Text pieces of a node in document order (the NavigableStrings BS4
`get_text` joins). -/
def textPiecesN : Sanitizer.HNode → List String
  | .elem _ _ cs => textPiecesF cs
  | .textN s => [s]
  | .commentN s => [s]

/-- Text pieces of a forest. -/
def textPiecesF : Sanitizer.HForest → List String
  | .nil => []
  | .cons n rest => textPiecesN n ++ textPiecesF rest

end

/-- BS4 `get_text(separator=sep, strip=True)`: strip each piece, drop the
ones that become empty, join with the separator. -/
def getTextStrip (sep : String) (f : Sanitizer.HForest) : String :=
  PyStr.join sep (((textPiecesF f).map PyStr.strip).filter (fun s : String => !s.isEmpty))

mutual

/-- All nodes satisfying `p`, in document order (BS4 `find_all`). -/
def findAllN (p : Sanitizer.HNode → Bool) : Sanitizer.HNode → List Sanitizer.HNode
  | .elem t a cs =>
    (if p (.elem t a cs) then [Sanitizer.HNode.elem t a cs] else []) ++ findAllF p cs
  | .textN s => if p (.textN s) then [Sanitizer.HNode.textN s] else []
  | .commentN s => if p (.commentN s) then [Sanitizer.HNode.commentN s] else []

/-- All nodes of a forest satisfying `p`. -/
def findAllF (p : Sanitizer.HNode → Bool) : Sanitizer.HForest → List Sanitizer.HNode
  | .nil => []
  | .cons n rest => findAllN p n ++ findAllF p rest

end

/-- Attribute of an element node (`tag.get(name)`). -/
def nodeAttr (n : Sanitizer.HNode) (name : String) : Option String :=
  match n with
  | .elem _ a _ => Sanitizer.getAttr a name
  | _ => none

/-- Order-preserving deduplication against a seen list. -/
def dedupKeepAux (seen : List String) : List String → List String
  | [] => []
  | x :: rest =>
    if seen.contains x then dedupKeepAux seen rest
    else x :: dedupKeepAux (x :: seen) rest

/-- Image collection of `_item_to_page`: `src` or `data-src` (Python `or`
skips empty strings), joined against the page URL, deduplicated in
order. -/
def collect_images (join : String → String → String) (url : String)
    (clean : Sanitizer.HForest) : List String :=
  let srcs := (findAllF (Sanitizer.isTag "img") clean).map (fun img =>
    let s1 := (nodeAttr img "src").getD ""
    if s1 ≠ "" then s1 else (nodeAttr img "data-src").getD "")
  dedupKeepAux [] ((srcs.filter (fun s : String => !s.isEmpty)).map (join url))

/-- Internal-link collection of `_item_to_page`: anchors with an `href`,
stripped, with fragment/script/mail/tel schemes skipped, joined, kept when
on the item host, deduplicated in order. -/
def collect_internal_links (join : String → String → String)
    (urlparse : String → Crawler.PUrl) (url base_netloc : String)
    (clean : Sanitizer.HForest) : List String :=
  let anchors := findAllF
    (fun n => Sanitizer.isTag "a" n && (nodeAttr n "href").isSome) clean
  let cands := anchors.filterMap (fun a =>
    let href := PyStr.strip ((nodeAttr a "href").getD "")
    if href = "" || PyStr.startsWith "#" href || PyStr.startsWith "javascript:" href
        || PyStr.startsWith "mailto:" href || PyStr.startsWith "tel:" href then none
    else some (join url href))
  dedupKeepAux [] (cands.filter (fun l => (urlparse l).netloc = base_netloc))

/-- Function `_item_to_page(item, base_url)`. -/
def item_to_page (parse : String → Sanitizer.HForest)
    (mdify : Sanitizer.HForest → String)
    (urlparse : String → Crawler.PUrl) (join : String → String → String)
    (base_url : String) (item : WpItem) : Option Normalizer.PageModel :=
  let url := item.link
  if url = "" then none
  else
    let title := PyStr.strip item.titleRendered
    let raw_content := item.contentRendered
    let raw_excerpt := item.excerptRendered
    let description := if raw_excerpt ≠ "" then getTextStrip "" (parse raw_excerpt) else ""
    let clean := Sanitizer.sanitize (parse raw_content)
    let content_text := getTextStrip " " clean
    let content_md := PyStr.strip (mdify clean)
    let base_netloc := (urlparse base_url).netloc
    let images := collect_images join url clean
    let internal_links := collect_internal_links join urlparse url base_netloc clean
    let slug := if item.slug ≠ "" then item.slug else Normalizer.generate_slug (urlparse url) title
    let frontmatter := Normalizer.make_frontmatter title description url slug none
    let full_markdown := if content_md ≠ "" then frontmatter ++ "\n\n" ++ content_md else frontmatter
    some ⟨url, slug, title, description, content_text, full_markdown,
          images, internal_links, some url⟩

end WP

namespace Strategy

/-!
## app/services/strategy.py

The orchestrator's collaborators are environment fields: the WordPress
detection result for the start URL, the WordPress extraction as a function
of the page cap (an `Except` for its caught exception), the sitemap URL
list, one fetch per URL (`none` for a caught exception), the extractor and
canonical reader, and the crawl result as a function of the capped limits.
The start URL itself is absorbed into those fields.
-/

/-- Constant `MAX_PAGES_HARD_LIMIT` of the strategy module. -/
def MAX_PAGES_HARD_LIMIT : Nat := 100

/-- Output of `extract(html, url)` as `_extract_url_list` consumes it. -/
structure ExtractOut where
  title : String
  description : String
  content_markdown : String
  images : List String
  videos : List String
  links : List String
  word_count : Nat
deriving DecidableEq

/-- One crawler `PageData` as `auto_extract` consumes it. -/
structure CrawlRaw where
  url : String
  title : String
  description : String
  content_markdown : String
  images : List String
  links : List String
deriving DecidableEq

/-- The orchestrator's external world. -/
structure StrategyEnv where
  urlparse : String → Crawler.PUrl
  is_wordpress : Bool
  wp_pages : Nat → Except Unit (List Normalizer.PageModel)
  sitemap_urls : List String
  fetch_page : String → Option String
  extract : String → String → ExtractOut
  extract_canonical : String → String → Option String
  crawl_raw : Nat → Nat → List CrawlRaw

/-- Function `_build_page_model`. -/
def build_page_model (urlparse : String → Crawler.PUrl)
    (url title description content_markdown : String)
    (images internal_links : List String) (canonical : Option String) :
    Normalizer.PageModel :=
  let slug := Normalizer.generate_slug (urlparse url) title
  let frontmatter := Normalizer.make_frontmatter title description url slug canonical
  let full_markdown :=
    if content_markdown ≠ "" then frontmatter ++ "\n\n" ++ content_markdown else frontmatter
  ⟨url, slug, title, description, content_markdown, full_markdown,
   images, internal_links, canonical⟩

/-- Loop of `_extract_url_list` over the URL list with its results and
seen accumulators. -/
def extract_url_list_go (env : StrategyEnv) (incI incL : Bool) (max_pages : Nat) :
    List String → List Normalizer.PageModel → List String → List Normalizer.PageModel
  | [], results, _ => results
  | url :: rest, results, seen =>
    if max_pages ≤ results.length then results
    else if seen.contains url then extract_url_list_go env incI incL max_pages rest results seen
    else
      let seen2 := seen ++ [url]
      match env.fetch_page url with
      | none => extract_url_list_go env incI incL max_pages rest results seen2
      | some html =>
        let e := env.extract html url
        let canonical := env.extract_canonical html url
        let base_netloc := (env.urlparse url).netloc
        let internal_links :=
          if incL then e.links.filter (fun l => (env.urlparse l).netloc = base_netloc) else []
        let img_list := if incI then e.images else []
        extract_url_list_go env incI incL max_pages rest
          (results ++ [build_page_model env.urlparse url e.title e.description
            e.content_markdown img_list internal_links canonical]) seen2

/-- Function `_extract_url_list`. -/
def extract_url_list (env : StrategyEnv) (urls : List String)
    (incI incL : Bool) (max_pages : Nat) : List Normalizer.PageModel :=
  extract_url_list_go env incI incL max_pages urls [] []

/-- Function `auto_extract(start_url, max_pages, max_depth, include_images,
include_links)`: WordPress API, then sitemap, then crawler, returning the
first strategy with a non-empty page list (label, pages). -/
def auto_extract (env : StrategyEnv) (max_pages max_depth : Nat)
    (include_images include_links : Bool) : String × List Normalizer.PageModel :=
  let mp := min max_pages MAX_PAGES_HARD_LIMIT
  let crawler_branch : String × List Normalizer.PageModel :=
    ("crawler", (env.crawl_raw mp max_depth).map (fun raw =>
      build_page_model env.urlparse raw.url raw.title raw.description raw.content_markdown
        (if include_images then raw.images else [])
        (if include_links then raw.links else [])
        none))
  let rest : String × List Normalizer.PageModel :=
    if !env.sitemap_urls.isEmpty then
      let pages := extract_url_list env env.sitemap_urls include_images include_links mp
      if !pages.isEmpty then ("sitemap", pages) else crawler_branch
    else crawler_branch
  if env.is_wordpress then
    match env.wp_pages mp with
    | .ok pages =>
      if !pages.isEmpty then
        let pages2 := if include_images then pages
          else pages.map (fun p => { p with images := [] })
        let pages3 := if include_links then pages2
          else pages2.map (fun p => { p with internal_links := [] })
        ("wordpress_api", pages3)
      else rest
    | .error _ => rest
  else rest

end Strategy

namespace Claims

/-- Trivial parser for concrete instantiations (the abstract collaborators
are universally quantified in the theorems). -/
def parse0 : String → Sanitizer.HForest := fun _ => .nil

/-- Trivial markdown converter for concrete instantiations. -/
def mdify0 : Sanitizer.HForest → String := fun _ => ""

/-- Constant URL parser for concrete instantiations. -/
def urlparse0 : String → Crawler.PUrl := fun _ => ⟨"https", "example.com", "/", "", ""⟩

/-- Trivial URL join for concrete instantiations. -/
def join0 : String → String → String := fun _ s => s

/-- Item with a valid permalink whose rendered content is empty (the input
of test_empty_content_returns_none). -/
def emptyContentItem : WP.WpItem :=
  ⟨"https://example.com/test-page/", "test-page", "Test Page", "", ""⟩

/-- Item without a permalink (the input of test_missing_link_returns_none). -/
def noLinkItem : WP.WpItem := ⟨"", "no-link", "No Link", "<p>Some content</p>", ""⟩

/-- C5: `_item_to_page` discards an item only for a missing permalink; an
item with a valid link whose content is empty is NOT discarded — for every
choice of the parser, markdown converter and URL helpers it yields a page,
because the function never inspects the sanitized content before building
the model (and it never calls `strip_shortcodes` at all), contradicting the
repository tests `TestItemToPageDummyPageFilter` and the claim. -/
theorem C5_empty_content_item_kept :
    (∀ (parse : String → Sanitizer.HForest) (mdify : Sanitizer.HForest → String)
       (urlparse : String → Crawler.PUrl) (join : String → String → String),
      (WP.item_to_page parse mdify urlparse join "https://example.com"
        emptyContentItem).isSome = true) ∧
    (∀ (parse : String → Sanitizer.HForest) (mdify : Sanitizer.HForest → String)
       (urlparse : String → Crawler.PUrl) (join : String → String → String)
       (base : String) (item : WP.WpItem), item.link = "" →
      WP.item_to_page parse mdify urlparse join base item = none) := by
  constructor
  · intro parse mdify urlparse join
    rfl
  · intro parse mdify urlparse join base item hl
    simp [WP.item_to_page, hl]

/-- C5 witness: the concrete no-link item is discarded; the concrete
empty-content item is kept. -/
theorem C5_empty_content_item_kept_witness :
    WP.item_to_page parse0 mdify0 urlparse0 join0 "https://example.com" noLinkItem = none ∧
    (WP.item_to_page parse0 mdify0 urlparse0 join0 "https://example.com"
      emptyContentItem).isSome = true :=
  ⟨C5_empty_content_item_kept.2 parse0 mdify0 urlparse0 join0 "https://example.com"
    noLinkItem rfl,
   C5_empty_content_item_kept.1 parse0 mdify0 urlparse0 join0⟩

/-- Item whose API-provided slug is not filesystem-safe. -/
def badSlugItem : WP.WpItem := ⟨"https://example.com/x/", "bad/slug !", "Title", "<p>hi</p>", ""⟩

/-- C10 counterexample: the WordPress path passes a truthy API-provided
slug through verbatim (`item.get("slug") or generate_slug(...)`), so a
PageModel built by `_item_to_page` can carry a slug containing a slash and
a space — not in the claimed lowercase/digit/hyphen character set. -/
theorem C10_wp_slug_passthrough :
    (WP.item_to_page parse0 mdify0 urlparse0 join0 "https://example.com"
      badSlugItem).map (fun p => p.slug) = some "bad/slug !" ∧
    ¬ (∀ c ∈ "bad/slug !".data, Normalizer.isSlugChar c = true ∨ c = '-') := by
  constructor
  · decide
  · decide

/-- Item with an empty API slug, forcing the `generate_slug` fallback. -/
def slugItem : WP.WpItem := ⟨"https://example.com/post/", "", "My Post", "", ""⟩

/-- The page `_item_to_page` produces for `slugItem` under the trivial
collaborators. -/
def slugItemPage : Normalizer.PageModel :=
  ⟨"https://example.com/post/", "my-post", "My Post", "", "",
   "---\ntitle: \"My Post\"\ndescription: \"\"\nurl: \"https://example.com/post/\"\nslug: \"my-post\"\n---",
   [], [], some "https://example.com/post/"⟩

/-- C10 amended: `generate_slug` always yields a well-formed slug
(non-empty; only lowercase letters, digits and single hyphens; no edge
hyphen), with the constant `"page"` when nothing usable remains; pages
built by `_build_page_model` (the crawler and sitemap paths) carry exactly
that slug; the WordPress path guarantees only non-emptiness, since a
truthy API slug is passed through. -/
theorem C10_slug_invariant :
    (∀ (u : Crawler.PUrl) (t : String),
      Normalizer.slug_wellformed (Normalizer.generate_slug u t)) ∧
    Normalizer.generate_slug ⟨"http", "", "", "", ""⟩ "" = "page" ∧
    Normalizer.generate_slug ⟨"http", "***", "!!!", "", ""⟩ "" = "page" ∧
    (∀ (urlparse : String → Crawler.PUrl)
       (url title description cm : String) (imgs links : List String)
       (canonical : Option String),
      (Strategy.build_page_model urlparse url title description cm imgs links
        canonical).slug = Normalizer.generate_slug (urlparse url) title) ∧
    (∀ (parse : String → Sanitizer.HForest) (mdify : Sanitizer.HForest → String)
       (urlparse : String → Crawler.PUrl) (join : String → String → String)
       (base : String) (item : WP.WpItem) (p : Normalizer.PageModel),
      WP.item_to_page parse mdify urlparse join base item = some p → p.slug ≠ "") := by
  refine ⟨fun u t => Normalizer.generate_slug_wellformed u t, by decide, by decide,
    fun _ _ _ _ _ _ _ _ => rfl, ?_⟩
  intro parse mdify urlparse join base item p hp
  by_cases hl : item.link = ""
  · simp [WP.item_to_page, hl] at hp
  · simp only [WP.item_to_page] at hp
    rw [if_neg hl] at hp
    rw [← Option.some.inj hp]
    dsimp only
    by_cases hs : item.slug = ""
    · rw [if_neg (fun hcon : item.slug ≠ "" => hcon hs)]
      exact (Normalizer.generate_slug_wellformed _ _).1
    · rw [if_pos hs]
      exact hs

/-- C10 witness: a concrete slug is well-formed, and the concrete
WordPress page with an empty API slug has a non-empty slug. -/
theorem C10_slug_invariant_witness :
    Normalizer.slug_wellformed
      (Normalizer.generate_slug ⟨"https", "example.com", "/hello-world.html", "", ""⟩ "") ∧
    slugItemPage.slug ≠ "" :=
  ⟨C10_slug_invariant.1 ⟨"https", "example.com", "/hello-world.html", "", ""⟩ "",
   C10_slug_invariant.2.2.2.2 parse0 mdify0 urlparse0 join0 "https://example.com"
     slugItem slugItemPage (by decide)⟩

/-- C2: the orchestrator label is `wordpress_api` whenever detection holds
and the API extraction yields a non-empty page list, for every state of
the sitemap; without detection it is `sitemap` when the sitemap URL list
and its extraction are non-empty, and `crawler` when no sitemap exists. -/
theorem C2_strategy_priority :
    (∀ (env : Strategy.StrategyEnv) (mp md : Nat) (i l : Bool)
       (ps : List Normalizer.PageModel),
      env.is_wordpress = true →
      env.wp_pages (min mp Strategy.MAX_PAGES_HARD_LIMIT) = .ok ps → ps ≠ [] →
      (Strategy.auto_extract env mp md i l).1 = "wordpress_api") ∧
    (∀ (env : Strategy.StrategyEnv) (mp md : Nat) (i l : Bool),
      env.is_wordpress = false → env.sitemap_urls ≠ [] →
      Strategy.extract_url_list env env.sitemap_urls i l
        (min mp Strategy.MAX_PAGES_HARD_LIMIT) ≠ [] →
      (Strategy.auto_extract env mp md i l).1 = "sitemap") ∧
    (∀ (env : Strategy.StrategyEnv) (mp md : Nat) (i l : Bool),
      env.is_wordpress = false → env.sitemap_urls = [] →
      (Strategy.auto_extract env mp md i l).1 = "crawler") := by
  refine ⟨?_, ?_, ?_⟩
  · intro env mp md i l ps hwp hok hne
    have hemp : ps.isEmpty = false := by
      simpa [List.isEmpty_iff] using hne
    simp [Strategy.auto_extract, hwp, hok, hemp]
  · intro env mp md i l hwp hsm hne
    have hemp : env.sitemap_urls.isEmpty = false := by
      simpa [List.isEmpty_iff] using hsm
    have hemp2 : (Strategy.extract_url_list env env.sitemap_urls i l
        (min mp Strategy.MAX_PAGES_HARD_LIMIT)).isEmpty = false := by
      simpa [List.isEmpty_iff] using hne
    simp [Strategy.auto_extract, hwp, hemp, Strategy.extract_url_list] at hemp2 ⊢
    simp [hemp2]
  · intro env mp md i l hwp hsm
    simp [Strategy.auto_extract, hwp, hsm]

/-- A page for the C2 WordPress environment. -/
def dummyPage : Normalizer.PageModel :=
  ⟨"https://wp.example/post", "post", "Post", "", "body text", "md", [], [], none⟩

/-- C2 environment: WordPress detected, API yields one page, and a sitemap
is also reachable. -/
def envC2wp : Strategy.StrategyEnv where
  urlparse := urlparse0
  is_wordpress := true
  wp_pages := fun _ => .ok [dummyPage]
  sitemap_urls := ["https://site.example/page1"]
  fetch_page := fun _ => none
  extract := fun _ _ => ⟨"", "", "", [], [], [], 0⟩
  extract_canonical := fun _ _ => none
  crawl_raw := fun _ _ => []

/-- C2 environment: no WordPress API, one working sitemap URL. -/
def envC2sm : Strategy.StrategyEnv where
  urlparse := urlparse0
  is_wordpress := false
  wp_pages := fun _ => .error ()
  sitemap_urls := ["https://site.example/page1"]
  fetch_page := fun _ => some "<html><body><p>hi</p></body></html>"
  extract := fun _ _ => ⟨"T", "", "body", [], [], [], 1⟩
  extract_canonical := fun _ _ => none
  crawl_raw := fun _ _ => []

/-- C2 environment: neither WordPress API nor sitemap. -/
def envC2cr : Strategy.StrategyEnv where
  urlparse := urlparse0
  is_wordpress := false
  wp_pages := fun _ => .error ()
  sitemap_urls := []
  fetch_page := fun _ => none
  extract := fun _ _ => ⟨"", "", "", [], [], [], 0⟩
  extract_canonical := fun _ _ => none
  crawl_raw := fun _ _ => []

/-- C2 witness: the three concrete environments produce the three labels;
in the first, a sitemap is reachable and the label is still
`wordpress_api`. -/
theorem C2_strategy_priority_witness :
    (Strategy.auto_extract envC2wp 20 3 true true).1 = "wordpress_api" ∧
    (Strategy.auto_extract envC2sm 20 3 true true).1 = "sitemap" ∧
    (Strategy.auto_extract envC2cr 20 3 true true).1 = "crawler" :=
  ⟨C2_strategy_priority.1 envC2wp 20 3 true true [dummyPage] rfl rfl (by decide),
   C2_strategy_priority.2.1 envC2sm 20 3 true true rfl (by decide) (by decide),
   C2_strategy_priority.2.2 envC2cr 20 3 true true rfl rfl⟩

end Claims
